import Mathlib

/-!
Shallow embedding of the `pyspecies` numerical core
(`src/pyspecies/_utils.py` and `lib/population.py`).

Concentration vectors (numpy 1-D arrays) are modelled as `List ℚ`;
the 2×3 coefficient matrices `D` and `R` as a six-field structure.
Functions that can raise in Python (a failed `assert`, an out-of-bounds
numpy index, a shape mismatch on slice assignment) return `Option`.
-/

namespace PySpecies

/-- The 2×3 coefficient matrices (diffusion `D` and reaction `R`):
row `i` is the species, columns `0,1,2` the self/cross term selectors. -/
structure Mat23 where
  m00 : ℚ
  m01 : ℚ
  m02 : ℚ
  m10 : ℚ
  m11 : ℚ
  m12 : ℚ
  deriving DecidableEq

/-- Total entry access with indices known to be in bounds. -/
def Mat23.entry (M : Mat23) : Fin 2 → Fin 3 → ℚ
  | ⟨0, _⟩, ⟨0, _⟩ => M.m00
  | ⟨0, _⟩, ⟨1, _⟩ => M.m01
  | ⟨0, _⟩, ⟨2, _⟩ => M.m02
  | ⟨1, _⟩, ⟨0, _⟩ => M.m10
  | ⟨1, _⟩, ⟨1, _⟩ => M.m11
  | ⟨1, _⟩, ⟨2, _⟩ => M.m12

/-- numpy integer index normalization for an axis of length `n`:
a negative index counts from the end; anything still out of `[0, n)`
raises `IndexError`, modelled as `none`. -/
def normIdx (n : ℕ) (r : ℤ) : Option (Fin n) :=
  if h : 0 ≤ (if r < 0 then r + n else r) ∧ (if r < 0 then r + n else r) < n then
    some ⟨(if r < 0 then r + n else r).toNat, by omega⟩
  else none

/-- numpy-style indexing `M[r, c]` of a 2×3 matrix, `none` on `IndexError`. -/
def Mat23.np_get (M : Mat23) (r c : ℤ) : Option ℚ :=
  match normIdx 2 r, normIdx 3 c with
  | some i, some j => some (M.entry i j)
  | _, _ => none

/-- Column index `i + 1` used by the source for the own-species quadratic term. -/
def selfCol (i : Fin 2) : Fin 3 := ⟨i.val + 1, by omega⟩

/-- Column index `2 - i` used by the source for the cross-species term. -/
def crossCol (i : Fin 2) : Fin 3 := ⟨2 - i.val, by omega⟩

/-- `XtoUV` from `_utils.py`: `K = len(X) // 2; return X[:K], X[K:]`.
Python slicing is total, so no `Option` is needed. -/
def XtoUV (X : List ℚ) : List ℚ × List ℚ :=
  (X.take (X.length / 2), X.drop (X.length / 2))

/-- `UVtoX` from `_utils.py`: `X = zeros(2K); X[:K] = U; X[K:] = V`.
The slice assignment `X[K:] = V` succeeds when `len(V) == K`, broadcasts a
length-1 `V` across the slice, and raises `ValueError` otherwise (`none`). -/
def UVtoX (U V : List ℚ) : Option (List ℚ) :=
  if V.length = U.length then some (U ++ V)
  else if V.length = 1 then some (U ++ List.replicate U.length (V.headD 0))
  else none

/-- **C10** — `XtoUV` is total on every length: it never raises, returns the
pair `(X[0:⌊n/2⌋], X[⌊n/2⌋:n])` whose concatenation is `X`, with half lengths
`⌊n/2⌋` and `n − ⌊n/2⌋ = ⌈n/2⌉` (unequal when `n` is odd). -/
theorem C10_XtoUV_total (X : List ℚ) :
    (XtoUV X).1 = X.take (X.length / 2) ∧
    (XtoUV X).2 = X.drop (X.length / 2) ∧
    (XtoUV X).1 ++ (XtoUV X).2 = X ∧
    (XtoUV X).1.length = X.length / 2 ∧
    (XtoUV X).2.length = X.length - X.length / 2 := by
  refine ⟨rfl, rfl, List.take_append_drop _ _, ?_, ?_⟩
  · simp [XtoUV]
    omega
  · simp [XtoUV]

/-- **C8, counterexample** — on the odd-length input `[1,2,3]`, `XtoUV` does
not reject: it returns the pair `([1], [2,3])`. -/
theorem C8_counterexample :
    XtoUV [1, 2, 3] = ([1], [2, 3]) := by
  decide

/-- **C8, amended** — `XtoUV` on a vector of odd length does not raise or
assert; it returns the pair of slices `(X[:⌊n/2⌋], X[⌊n/2⌋:])`, whose halves
have the unequal lengths `⌊n/2⌋` and `⌈n/2⌉`. -/
theorem C8_amended_odd_split (X : List ℚ) (hodd : X.length % 2 = 1) :
    XtoUV X = (X.take (X.length / 2), X.drop (X.length / 2)) ∧
    (XtoUV X).1.length = X.length / 2 ∧
    (XtoUV X).2.length = (X.length + 1) / 2 ∧
    (XtoUV X).1.length ≠ (XtoUV X).2.length := by
  refine ⟨rfl, ?_, ?_, ?_⟩ <;> simp [XtoUV] <;> omega

/-- Witness of `C8_amended_odd_split` at `X = [1,2,3]`. -/
theorem C8_amended_odd_split_witness :
    ([(1 : ℚ), 2, 3].length % 2 = 1) ∧
    XtoUV [1, 2, 3] = ([(1 : ℚ), 2, 3].take ([(1 : ℚ), 2, 3].length / 2),
      [(1 : ℚ), 2, 3].drop ([(1 : ℚ), 2, 3].length / 2)) :=
  ⟨by decide, (C8_amended_odd_split [1, 2, 3] (by decide)).1⟩

/-- **C5** — packing round-trips: `UVtoX U V` on equal-length inputs is the
concatenation (length `2K`, first half `U`, second half `V`),
`XtoUV (UVtoX U V) = (U, V)`, and for even-length `X`,
`UVtoX (XtoUV X).1 (XtoUV X).2 = X`. -/
theorem C5_pack_unpack_roundtrip (U V : List ℚ) (h : U.length = V.length)
    (X : List ℚ) (hX : X.length % 2 = 0) :
    UVtoX U V = some (U ++ V) ∧
    (U ++ V).length = 2 * U.length ∧
    (U ++ V).take U.length = U ∧
    (U ++ V).drop U.length = V ∧
    XtoUV (U ++ V) = (U, V) ∧
    UVtoX (XtoUV X).1 (XtoUV X).2 = some X := by
  have hhalf : (U ++ V).length / 2 = U.length := by
    simp [List.length_append]
    omega
  refine ⟨?_, ?_, ?_, ?_, ?_, ?_⟩
  · simp [UVtoX, h]
  · simp [List.length_append]
    omega
  · simp
  · simp
  · rw [XtoUV]
    simp only [List.length_append]
    rw [show (U.length + V.length) / 2 = U.length from by omega]
    simp
  · have h1 : (XtoUV X).1.length = X.length / 2 := by simp [XtoUV]; omega
    have h2 : (XtoUV X).2.length = X.length - X.length / 2 := by simp [XtoUV]
    have heq : (XtoUV X).2.length = (XtoUV X).1.length := by omega
    rw [UVtoX, if_pos heq]
    simp [XtoUV]

/-- Witness of `C5_pack_unpack_roundtrip` at `U = [1]`, `V = [2]`, `X = [5,6]`. -/
theorem C5_pack_unpack_roundtrip_witness :
    ([(1 : ℚ)].length = [(2 : ℚ)].length) ∧ ([(5 : ℚ), 6].length % 2 = 0) ∧
    UVtoX [(1 : ℚ)] [(2 : ℚ)] = some ([(1 : ℚ)] ++ [(2 : ℚ)]) ∧
    XtoUV ([(1 : ℚ)] ++ [(2 : ℚ)]) = ([(1 : ℚ)], [(2 : ℚ)]) := by
  have h := C5_pack_unpack_roundtrip [(1 : ℚ)] [(2 : ℚ)] (by decide) [(5 : ℚ), 6] (by decide)
  exact ⟨by decide, by decide, h.1, h.2.2.2.2.1⟩

/-- `np.roll(v, 1)`: cyclic shift forward, the last element moves to the front. -/
def rollForward : List ℚ → List ℚ
  | [] => []
  | x :: xs => (x :: xs).getLast (List.cons_ne_nil x xs) :: (x :: xs).dropLast

/-- `np.roll(v, -1)`: cyclic shift backward, the first element moves to the end. -/
def rollBackward : List ℚ → List ℚ
  | [] => []
  | x :: xs => xs ++ [x]

/-- Pointwise `center` term of `f` in `_utils.py`:
`(1 − R[i,0] + 2·D[i,0])·A + (R[i,i+1] + 2·D[i,i+1])·A² + (R[i,2−i] + 2·D[i,2−i])·A·B`. -/
def centerPt (i : Fin 2) (D R : Mat23) (a b : ℚ) : ℚ :=
  (1 - R.entry i 0 + 2 * D.entry i 0) * a
    + (R.entry i (selfCol i) + 2 * D.entry i (selfCol i)) * (a * a)
    + (R.entry i (crossCol i) + 2 * D.entry i (crossCol i)) * (a * b)

/-- Pointwise `border` term of `f` in `_utils.py`:
`D[i,0]·A + D[i,i+1]·A² + D[i,2−i]·A·B`. -/
def borderPt (i : Fin 2) (D : Mat23) (a b : ℚ) : ℚ :=
  D.entry i 0 * a + D.entry i (selfCol i) * (a * a) + D.entry i (crossCol i) * (a * b)

/-- Body of `f` after the species-index assert:
`center - np.roll(border, 1) - np.roll(border, -1)`, elementwise over `A`, `B`. -/
def fCore (i : Fin 2) (A B : List ℚ) (D R : Mat23) : List ℚ :=
  let center := List.zipWith (centerPt i D R) A B
  let border := List.zipWith (borderPt i D) A B
  List.zipWith (· - ·) (List.zipWith (· - ·) center (rollForward border)) (rollBackward border)

/-- `f` from `_utils.py`; the leading `assert i == 0 or i == 1` is modelled
by returning `none` (an `AssertionError`) for any other index. -/
def f (i : ℤ) (A B : List ℚ) (D R : Mat23) : Option (List ℚ) :=
  if i = 0 then some (fCore 0 A B D R)
  else if i = 1 then some (fCore 1 A B D R)
  else none

/-- Pointwise body of `mu` from `_utils.py`:
`D[i,0] + 2·D[i,i+1]·A + D[i,2−i]·B`. -/
def muPt (i : Fin 2) (D : Mat23) (a b : ℚ) : ℚ :=
  D.entry i 0 + 2 * D.entry i (selfCol i) * a + D.entry i (crossCol i) * b

/-- `mu` from `_utils.py` with its species-index assert. -/
def mu (i : ℤ) (A B : List ℚ) (D : Mat23) : Option (List ℚ) :=
  if i = 0 then some (List.zipWith (muPt 0 D) A B)
  else if i = 1 then some (List.zipWith (muPt 1 D) A B)
  else none

/-- Pointwise body of `nu` from `_utils.py`:
`(1 − R[i,0] + 2·D[i,0]) + 2·(R[i,i+1] + 2·D[i,i+1])·A + (R[i,2−i] + 2·D[i,2−i])·B`. -/
def nuPt (i : Fin 2) (D R : Mat23) (a b : ℚ) : ℚ :=
  (1 - R.entry i 0 + 2 * D.entry i 0)
    + 2 * (R.entry i (selfCol i) + 2 * D.entry i (selfCol i)) * a
    + (R.entry i (crossCol i) + 2 * D.entry i (crossCol i)) * b

/-- `nu` from `_utils.py` with its species-index assert. -/
def nu (i : ℤ) (A B : List ℚ) (D R : Mat23) : Option (List ℚ) :=
  if i = 0 then some (List.zipWith (nuPt 0 D R) A B)
  else if i = 1 then some (List.zipWith (nuPt 1 D R) A B)
  else none

/-- A concrete diffusion matrix used by witnesses. -/
def exD : Mat23 := ⟨1, 2, 3, 4, 5, 6⟩

/-- A concrete reaction matrix used by witnesses. -/
def exR : Mat23 := ⟨2, 3, 5, 7, 11, 13⟩

/-- **C1** — for a species index in `{0,1}` and equal-length concentration
vectors, `f` returns `center − shift(border, +1) − shift(border, −1)`, where,
with `j = i+1` and `k = 2−i`, elementwise
`center = (1 − R[i,0] + 2·D[i,0])·A + (R[i,j] + 2·D[i,j])·A² + (R[i,k] + 2·D[i,k])·A·B`,
`border = D[i,0]·A + D[i,j]·A² + D[i,k]·A·B`, `shift(·,+1)` moves the last
element to the front and `shift(·,−1)` moves the first element to the end. -/
theorem C1_residual_formula (i : Fin 2) (A B : List ℚ)
    (hlen : A.length = B.length) (D R : Mat23) :
    f ((i.val : ℤ)) A B D R =
      some (List.zipWith (· - ·)
        (List.zipWith (· - ·)
          (List.zipWith (fun a b =>
              (1 - R.entry i 0 + 2 * D.entry i 0) * a
                + (R.entry i (selfCol i) + 2 * D.entry i (selfCol i)) * (a * a)
                + (R.entry i (crossCol i) + 2 * D.entry i (crossCol i)) * (a * b)) A B)
          (rollForward (List.zipWith (fun a b =>
              D.entry i 0 * a + D.entry i (selfCol i) * (a * a)
                + D.entry i (crossCol i) * (a * b)) A B)))
        (rollBackward (List.zipWith (fun a b =>
            D.entry i 0 * a + D.entry i (selfCol i) * (a * a)
              + D.entry i (crossCol i) * (a * b)) A B))) := by
  fin_cases i <;> rfl

/-- Witness of `C1_residual_formula` at `i = 0`, `A = [1,2]`, `B = [3,4]`. -/
theorem C1_residual_formula_witness :
    ([(1 : ℚ), 2].length = [(3 : ℚ), 4].length) ∧
    f (((0 : Fin 2).val : ℤ)) [1, 2] [3, 4] exD exR =
      some (List.zipWith (· - ·)
        (List.zipWith (· - ·)
          (List.zipWith (fun a b =>
              (1 - exR.entry 0 0 + 2 * exD.entry 0 0) * a
                + (exR.entry 0 (selfCol 0) + 2 * exD.entry 0 (selfCol 0)) * (a * a)
                + (exR.entry 0 (crossCol 0) + 2 * exD.entry 0 (crossCol 0)) * (a * b)) [1, 2] [3, 4])
          (rollForward (List.zipWith (fun a b =>
              exD.entry 0 0 * a + exD.entry 0 (selfCol 0) * (a * a)
                + exD.entry 0 (crossCol 0) * (a * b)) [1, 2] [3, 4])))
        (rollBackward (List.zipWith (fun a b =>
            exD.entry 0 0 * a + exD.entry 0 (selfCol 0) * (a * a)
              + exD.entry 0 (crossCol 0) * (a * b)) [1, 2] [3, 4]))) :=
  ⟨by decide, C1_residual_formula 0 [1, 2] [3, 4] (by decide) exD exR⟩

/-- **C2** — `nu` and `mu` are the exact own-species partial derivatives of the
pointwise `center` and `border` terms of `f`: the second-order Taylor
expansions hold exactly, with quadratic coefficients `R[i,i+1] + 2·D[i,i+1]`
and `D[i,i+1]` respectively. -/
theorem C2_derivative_consistency (i : Fin 2) (D R : Mat23) (a b h : ℚ) :
    centerPt i D R (a + h) b - centerPt i D R a b
        = nuPt i D R a b * h
          + (R.entry i (selfCol i) + 2 * D.entry i (selfCol i)) * (h * h) ∧
    borderPt i D (a + h) b - borderPt i D a b
        = muPt i D a b * h + D.entry i (selfCol i) * (h * h) := by
  constructor <;>
    · simp only [centerPt, nuPt, borderPt, muPt]
      ring

/-- The five banded components returned by `block_diags`, in source order:
top-right corner, sub-band `−DA[1:]`, main diagonal, sub-band `−DA[:-1]`,
bottom-left corner. -/
structure Diag5 where
  d0 : List ℚ
  d1 : List ℚ
  d2 : List ℚ
  d3 : List ℚ
  d4 : List ℚ
  deriving DecidableEq

/-- `block_diags` from `_utils.py`. It has no assert; an index outside
`{0,1}` fails on the numpy lookup `D[i, 2-i]` (hence `np_get`), and an empty
`A` fails on `DA[-1]`. `DA = D[i,2-i] * A`; the result is
`[[-DA[-1]], -DA[1:], R[i,2-i]*A + 2*DA, -DA[:-1], [-DA[0]]]`. -/
def block_diags (i : ℤ) (A : List ℚ) (D R : Mat23) : Option Diag5 := do
  let dik ← D.np_get i (2 - i)
  let rik ← R.np_get i (2 - i)
  if A.isEmpty then none
  else
    let DA := A.map (fun x => dik * x)
    pure ⟨[-(DA.getLastD 0)],
          (DA.drop 1).map (fun x => -x),
          List.zipWith (fun x y => rik * x + 2 * y) A DA,
          DA.dropLast.map (fun x => -x),
          [-(DA.headD 0)]⟩

/-- `merge_diags` from `_utils.py`: the 11 bands of the full `2K×2K`
Jacobian, assembled from the four blocks by `np.concatenate` (`++`). -/
def merge_diags (P Q R S : Diag5) : List (List ℚ) :=
  [Q.d0,
   Q.d1,
   Q.d2,
   P.d0 ++ Q.d3 ++ S.d0,
   P.d1 ++ Q.d4 ++ S.d1,
   P.d2 ++ S.d2,
   P.d3 ++ R.d0 ++ S.d3,
   P.d4 ++ R.d1 ++ S.d4,
   R.d2,
   R.d3,
   R.d4]

/-- For an in-range species index, the numpy lookup `M[i, 2-i]` succeeds and
selects the cross column. -/
theorem np_get_crossCol (M : Mat23) (i : Fin 2) :
    M.np_get (i.val : ℤ) (2 - (i.val : ℤ)) = some (M.entry i (crossCol i)) := by
  fin_cases i <;> rfl

/-- For a species index outside `{0,1}`, the numpy lookup `M[i, 2-i]`
raises `IndexError`: either the row or the column is out of bounds. -/
theorem np_get_crossCol_out (M : Mat23) (i : ℤ) (h0 : i ≠ 0) (h1 : i ≠ 1) :
    M.np_get i (2 - i) = none := by
  rcases lt_or_le i 0 with hneg | hpos
  · -- the column index `2 - i ≥ 3` is out of bounds
    have hcol : normIdx 3 (2 - i) = none := by
      rw [normIdx]
      split_ifs <;> first | rfl | (exfalso; omega)
    rw [Mat23.np_get, hcol]
    rcases normIdx 2 i with _ | v <;> rfl
  · -- the row index `i ≥ 2` is out of bounds
    have hrow : normIdx 2 i = none := by
      rw [normIdx]
      split_ifs <;> first | rfl | (exfalso; omega)
    rw [Mat23.np_get, hrow]

/-- **C7** — every residual/derivative helper (`f`, `mu`, `nu`, and
`block_diags`) fails rather than returning a value when the species index is
outside `{0,1}`: `f`, `mu`, `nu` by their `assert`, `block_diags` by the
out-of-bounds numpy lookup `D[i, 2-i]`. -/
theorem C7_invalid_species_index (i : ℤ) (h0 : i ≠ 0) (h1 : i ≠ 1)
    (A B : List ℚ) (D R : Mat23) :
    f i A B D R = none ∧ mu i A B D = none ∧ nu i A B D R = none ∧
    block_diags i A D R = none := by
  refine ⟨?_, ?_, ?_, ?_⟩
  · rw [f, if_neg h0, if_neg h1]
  · rw [mu, if_neg h0, if_neg h1]
  · rw [nu, if_neg h0, if_neg h1]
  · rw [block_diags, np_get_crossCol_out D i h0 h1]
    rfl

/-- Witness of `C7_invalid_species_index` at `i = 2`. -/
theorem C7_invalid_species_index_witness :
    ((2 : ℤ) ≠ 0) ∧ ((2 : ℤ) ≠ 1) ∧
    (f 2 [1] [1] exD exR = none ∧ mu 2 [1] [1] exD = none ∧
     nu 2 [1] [1] exD exR = none ∧ block_diags 2 [1] exD exR = none) :=
  ⟨by decide, by decide, C7_invalid_species_index 2 (by decide) (by decide) [1] [1] exD exR⟩

/-- `zipWith` of a list against its own image under `g` is a pointwise map. -/
theorem zipWith_map_self (g : ℚ → ℚ) (h : ℚ → ℚ → ℚ) : ∀ l : List ℚ,
    List.zipWith h l (l.map g) = l.map fun a => h a (g a)
  | [] => rfl
  | a :: t => by
    simp only [List.map_cons, List.zipWith_cons_cons, zipWith_map_self g h t]

/-- The last element of a nonempty mapped list is the image of the last element. -/
theorem getLastD_map_cons (g : ℚ → ℚ) (a : ℚ) (t : List ℚ) :
    (((a :: t).map g).getLastD 0) = g ((a :: t).getLastD 0) := by
  induction t generalizing a with
  | nil => rfl
  | cons b t ih => simpa using ih b

/-- **C4** — for a species index in `{0,1}` and a length-`K` vector `A` with
`K ≥ 2`, `block_diags` returns five banded components of lengths
`1, K−1, K, K−1, 1` in order; with `flux = D[i,2−i]·A`, the main diagonal is
`R[i,2−i]·A + 2·flux`, the single top-right corner entry is `−flux[K−1]`, the
single bottom-left corner entry is `−flux[0]`, and the two interior
off-diagonal bands are the negated flux entries `−flux[1:]` and `−flux[:-1]`. -/
theorem C4_block_diags_structure (i : Fin 2) (A : List ℚ) (K : ℕ)
    (hK : A.length = K) (h2 : 2 ≤ K) (D R : Mat23) :
    ∃ Bk : Diag5, block_diags (i.val : ℤ) A D R = some Bk ∧
      Bk.d0.length = 1 ∧ Bk.d1.length = K - 1 ∧ Bk.d2.length = K ∧
      Bk.d3.length = K - 1 ∧ Bk.d4.length = 1 ∧
      Bk.d2 = A.map (fun a => R.entry i (crossCol i) * a
        + 2 * (D.entry i (crossCol i) * a)) ∧
      Bk.d0 = [-(D.entry i (crossCol i) * A.getLastD 0)] ∧
      Bk.d4 = [-(D.entry i (crossCol i) * A.headD 0)] ∧
      Bk.d1 = ((A.map (fun x => D.entry i (crossCol i) * x)).drop 1).map
        (fun x => -x) ∧
      Bk.d3 = (A.map (fun x => D.entry i (crossCol i) * x)).dropLast.map
        (fun x => -x) := by
  cases A with
  | nil => exfalso; simp at hK; omega
  | cons a t =>
    refine ⟨⟨[-(((a :: t).map (fun x => D.entry i (crossCol i) * x)).getLastD 0)],
        (((a :: t).map (fun x => D.entry i (crossCol i) * x)).drop 1).map (fun x => -x),
        List.zipWith (fun x y => R.entry i (crossCol i) * x + 2 * y) (a :: t)
          ((a :: t).map (fun x => D.entry i (crossCol i) * x)),
        ((a :: t).map (fun x => D.entry i (crossCol i) * x)).dropLast.map (fun x => -x),
        [-(((a :: t).map (fun x => D.entry i (crossCol i) * x)).headD 0)]⟩,
      ?_, ?_, ?_, ?_, ?_, ?_, ?_, ?_, ?_, ?_, ?_⟩
    · rw [block_diags, np_get_crossCol D i, np_get_crossCol R i]
      rfl
    · rfl
    · simp at hK ⊢
      omega
    · simp at hK ⊢
      omega
    · simp at hK ⊢
      omega
    · rfl
    · exact zipWith_map_self _ _ _
    · rw [getLastD_map_cons]
    · rfl
    · rfl
    · rfl

/-- Witness of `C4_block_diags_structure` at `i = 0`, `A = [1,2]`, `K = 2`. -/
theorem C4_block_diags_structure_witness :
    ([(1 : ℚ), 2].length = 2) ∧ (2 ≤ 2) ∧
    ∃ Bk : Diag5, block_diags (((0 : Fin 2).val : ℤ)) [(1 : ℚ), 2] exD exR = some Bk ∧
      Bk.d0.length = 1 ∧ Bk.d1.length = 2 - 1 ∧ Bk.d2.length = 2 ∧
      Bk.d3.length = 2 - 1 ∧ Bk.d4.length = 1 ∧
      Bk.d2 = [(1 : ℚ), 2].map (fun a => exR.entry 0 (crossCol 0) * a
        + 2 * (exD.entry 0 (crossCol 0) * a)) ∧
      Bk.d0 = [-(exD.entry 0 (crossCol 0) * [(1 : ℚ), 2].getLastD 0)] ∧
      Bk.d4 = [-(exD.entry 0 (crossCol 0) * [(1 : ℚ), 2].headD 0)] ∧
      Bk.d1 = (([(1 : ℚ), 2].map (fun x => exD.entry 0 (crossCol 0) * x)).drop 1).map
        (fun x => -x) ∧
      Bk.d3 = ([(1 : ℚ), 2].map (fun x => exD.entry 0 (crossCol 0) * x)).dropLast.map
        (fun x => -x) :=
  ⟨by decide, by decide,
    C4_block_diags_structure 0 [(1 : ℚ), 2] 2 (by decide) (by decide) exD exR⟩

/-- Every successful `block_diags` call returns components of lengths
`1, K−1, K, K−1, 1` where `K` is the length of the input vector. -/
theorem block_diags_lengths {i : ℤ} {A : List ℚ} {D R : Mat23} {Bk : Diag5}
    (h : block_diags i A D R = some Bk) :
    Bk.d0.length = 1 ∧ Bk.d1.length = A.length - 1 ∧ Bk.d2.length = A.length ∧
    Bk.d3.length = A.length - 1 ∧ Bk.d4.length = 1 := by
  rw [block_diags] at h
  rcases hD : D.np_get i (2 - i) with _ | dik
  · rw [hD] at h
    exact absurd h (by simp)
  rw [hD] at h
  rcases hR : R.np_get i (2 - i) with _ | rik
  · rw [hR] at h
    exact absurd h (by simp)
  rw [hR] at h
  cases A with
  | nil => exact absurd h (by simp)
  | cons a t =>
    simp at h
    subst h
    refine ⟨rfl, ?_, ?_, ?_, rfl⟩ <;> simp

/-- Concrete evaluation of `block_diags` at `i = 0`, `A = [1,2]`, used by the
banded-assembler examples. -/
theorem bdEx :
    block_diags 0 [(1 : ℚ), 2] exD exR =
      some ⟨[-6], [-6], [11, 22], [-3], [-3]⟩ := by
  simp [block_diags, Mat23.np_get, normIdx, Mat23.entry, exD, exR]
  norm_num

/-- **C3, counterexample** — at `K = 2` (blocks built by `block_diags` from
the length-2 vector `[1,2]`), the merged bands do not have the lengths
`K, K, K, K−1, K−1, K−2, K−1, K−1, K, K, K` claimed by the specification:
the actual lengths are `[1, 1, 2, 3, 3, 4, 3, 3, 2, 1, 1]`. -/
theorem C3_counterexample :
    block_diags 0 [(1 : ℚ), 2] exD exR =
      some ⟨[-6], [-6], [11, 22], [-3], [-3]⟩ ∧
    (merge_diags ⟨[-6], [-6], [11, 22], [-3], [-3]⟩ ⟨[-6], [-6], [11, 22], [-3], [-3]⟩
        ⟨[-6], [-6], [11, 22], [-3], [-3]⟩ ⟨[-6], [-6], [11, 22], [-3], [-3]⟩).map
        List.length ≠ [2, 2, 2, 1, 1, 0, 1, 1, 2, 2, 2] := by
  exact ⟨bdEx, by decide⟩

/-- **C3, amended** — for grid size `K ≥ 2`, `merge_diags` applied to four
blocks produced by `block_diags` on length-`K` vectors returns exactly 11
diagonal bands, and their lengths are
`1, K−1, K, K+1, 2K−1, 2K, 2K−1, K+1, K, K−1, 1` for the respective offsets
(`2K−|offset|` at offsets `±(2K−1), ±(K+1), ±K, ±(K−1), ±1, 0`),
consistent with the band structure of a `2K×2K` matrix. -/
theorem C3_amended_band_lengths (K : ℕ) (hK : 2 ≤ K)
    (iP iQ iR iS : ℤ) (AP AQ AR AS : List ℚ)
    (DP RP DQ RQ DR2 RR2 DS RS : Mat23) (P Q Rb S : Diag5)
    (hAP : AP.length = K) (hAQ : AQ.length = K) (hAR : AR.length = K)
    (hAS : AS.length = K)
    (hP : block_diags iP AP DP RP = some P)
    (hQ : block_diags iQ AQ DQ RQ = some Q)
    (hR : block_diags iR AR DR2 RR2 = some Rb)
    (hS : block_diags iS AS DS RS = some S) :
    (merge_diags P Q Rb S).length = 11 ∧
    (merge_diags P Q Rb S).map List.length =
      [1, K - 1, K, K + 1, 2 * K - 1, 2 * K, 2 * K - 1, K + 1, K, K - 1, 1] := by
  obtain ⟨p0, p1, p2, p3, p4⟩ := block_diags_lengths hP
  obtain ⟨q0, q1, q2, q3, q4⟩ := block_diags_lengths hQ
  obtain ⟨r0, r1, r2, r3, r4⟩ := block_diags_lengths hR
  obtain ⟨s0, s1, s2, s3, s4⟩ := block_diags_lengths hS
  rw [hAP] at p1 p2 p3
  rw [hAQ] at q1 q2 q3
  rw [hAR] at r1 r2 r3
  rw [hAS] at s1 s2 s3
  refine ⟨rfl, ?_⟩
  simp only [merge_diags, List.map_cons, List.map_nil, List.length_append,
    List.cons.injEq, and_true]
  omega

/-- Witness of `C3_amended_band_lengths` with all four blocks built from
`A = [1,2]` (`K = 2`). -/
theorem C3_amended_band_lengths_witness :
    block_diags 0 [(1 : ℚ), 2] exD exR =
      some ⟨[-6], [-6], [11, 22], [-3], [-3]⟩ ∧
    ((merge_diags ⟨[-6], [-6], [11, 22], [-3], [-3]⟩ ⟨[-6], [-6], [11, 22], [-3], [-3]⟩
        ⟨[-6], [-6], [11, 22], [-3], [-3]⟩ ⟨[-6], [-6], [11, 22], [-3], [-3]⟩).length = 11 ∧
      (merge_diags ⟨[-6], [-6], [11, 22], [-3], [-3]⟩ ⟨[-6], [-6], [11, 22], [-3], [-3]⟩
        ⟨[-6], [-6], [11, 22], [-3], [-3]⟩ ⟨[-6], [-6], [11, 22], [-3], [-3]⟩).map
        List.length =
        [1, 2 - 1, 2, 2 + 1, 2 * 2 - 1, 2 * 2, 2 * 2 - 1, 2 + 1, 2, 2 - 1, 1]) :=
  ⟨bdEx,
    C3_amended_band_lengths 2 (by decide) 0 0 0 0 [(1 : ℚ), 2] [(1 : ℚ), 2]
      [(1 : ℚ), 2] [(1 : ℚ), 2] exD exR exD exR exD exR exD exR
      ⟨[-6], [-6], [11, 22], [-3], [-3]⟩ ⟨[-6], [-6], [11, 22], [-3], [-3]⟩
      ⟨[-6], [-6], [11, 22], [-3], [-3]⟩ ⟨[-6], [-6], [11, 22], [-3], [-3]⟩
      (by simp) (by simp) (by simp) (by simp)
      bdEx bdEx bdEx bdEx⟩

/-- `zipWith` over two uniform vectors is uniform. -/
theorem zipWith_replicate_both (g : ℚ → ℚ → ℚ) (a b : ℚ) : ∀ n : ℕ,
    List.zipWith g (List.replicate n a) (List.replicate n b) =
      List.replicate n (g a b)
  | 0 => rfl
  | n + 1 => by
    simp only [List.replicate_succ, List.zipWith_cons_cons,
      zipWith_replicate_both g a b n]

/-- The last element of a uniform vector is its value. -/
theorem getLast_cons_replicate (x : ℚ) : ∀ m : ℕ,
    (x :: List.replicate m x).getLast (List.cons_ne_nil x (List.replicate m x)) = x
  | 0 => rfl
  | m + 1 => by
    rw [List.replicate_succ, List.getLast_cons (List.cons_ne_nil _ _)]
    exact getLast_cons_replicate x m

/-- Dropping the last element of a uniform vector shortens it by one. -/
theorem dropLast_cons_replicate (x : ℚ) (m : ℕ) :
    (x :: List.replicate m x).dropLast = List.replicate m x := by
  have h : x :: List.replicate m x = List.replicate m x ++ [x] := by
    rw [← List.replicate_succ, List.replicate_succ']
  rw [h, List.dropLast_concat]

/-- A cyclic forward shift fixes a uniform vector. -/
theorem rollForward_replicate (n : ℕ) (x : ℚ) :
    rollForward (List.replicate n x) = List.replicate n x := by
  cases n with
  | zero => rfl
  | succ m =>
    rw [List.replicate_succ, rollForward, getLast_cons_replicate,
      dropLast_cons_replicate, ← List.replicate_succ]

/-- A cyclic backward shift fixes a uniform vector. -/
theorem rollBackward_replicate (n : ℕ) (x : ℚ) :
    rollBackward (List.replicate n x) = List.replicate n x := by
  cases n with
  | zero => rfl
  | succ m =>
    rw [List.replicate_succ, rollBackward, ← List.replicate_succ',
      ← List.replicate_succ]

/-- **C6** — the residual vanishes at a uniform reaction equilibrium: if the
non-diffusive part of the `center` term is zero at `(a, b)`, then `f` applied
to the uniform vectors `a·ones(K)` and `b·ones(K)` is the zero vector. -/
theorem C6_uniform_equilibrium (i : Fin 2) (K : ℕ) (hK : 1 ≤ K) (a b : ℚ)
    (D R : Mat23)
    (heq : (1 - R.entry i 0) * a + R.entry i (selfCol i) * (a * a)
      + R.entry i (crossCol i) * (a * b) = 0) :
    f ((i.val : ℤ)) (List.replicate K a) (List.replicate K b) D R
      = some (List.replicate K 0) := by
  have hzero : centerPt i D R a b - borderPt i D a b - borderPt i D a b = 0 := by
    simp only [centerPt, borderPt]
    linear_combination heq
  have hcore : fCore i (List.replicate K a) (List.replicate K b) D R
      = List.replicate K 0 := by
    rw [fCore]
    simp only [zipWith_replicate_both, rollForward_replicate,
      rollBackward_replicate, hzero]
  rcases i with ⟨iv, hiv⟩
  interval_cases iv
  · simpa [f] using congrArg some hcore
  · simpa [f] using congrArg some hcore

/-- Witness of `C6_uniform_equilibrium` at `i = 0`, `K = 2`, `a = b = 0`. -/
theorem C6_uniform_equilibrium_witness :
    (1 ≤ 2) ∧
    ((1 - exR.entry 0 0) * 0 + exR.entry 0 (selfCol 0) * (0 * 0)
      + exR.entry 0 (crossCol 0) * (0 * 0) = 0) ∧
    f (((0 : Fin 2).val : ℤ)) (List.replicate 2 (0 : ℚ)) (List.replicate 2 (0 : ℚ))
      exD exR = some (List.replicate 2 (0 : ℚ)) :=
  ⟨by decide, by ring,
    C6_uniform_equilibrium 0 2 (by decide) 0 0 exD exR (by ring)⟩

/-- The simulation orchestrator's state (`Population` in `lib/population.py`):
the stored diffusion matrix, spatial grid, state history and time history. -/
structure Population where
  D : Mat23
  Space : List ℚ
  Xlist : List (List ℚ)
  Tlist : List ℚ

/-- `Population.__init__` from `lib/population.py`:
`X0 = UVtoX(u0(Space), v0(Space)); self.Xlist = [X0, X0];
self.Tlist = np.array([0, 0])`. -/
def Population.init (Space : List ℚ) (u0 v0 : List ℚ → List ℚ) (D : Mat23) :
    Option Population := do
  let X0 ← UVtoX (u0 Space) (v0 Space)
  pure ⟨D, Space, [X0, X0], [0, 0]⟩

/-- **C9** — a freshly constructed `Population` holds exactly two trajectory
entries, both at time zero and both the packed initial condition:
`Tlist = [0, 0]` and `Xlist = [X0, X0]` with `X0 = UVtoX (u0 Space) (v0 Space)`. -/
theorem C9_fresh_trajectory (Space : List ℚ) (u0 v0 : List ℚ → List ℚ)
    (D : Mat23) (X0 : List ℚ) (h : UVtoX (u0 Space) (v0 Space) = some X0) :
    Population.init Space u0 v0 D = some ⟨D, Space, [X0, X0], [0, 0]⟩ := by
  rw [Population.init, h]
  rfl

/-- Witness of `C9_fresh_trajectory` with the identity sampling functions on
the one-node grid `[1]`. -/
theorem C9_fresh_trajectory_witness :
    UVtoX ((fun s => s) [(1 : ℚ)]) ((fun s => s) [(1 : ℚ)]) = some [1, 1] ∧
    Population.init [(1 : ℚ)] (fun s => s) (fun s => s) exD =
      some ⟨exD, [(1 : ℚ)], [[1, 1], [1, 1]], [0, 0]⟩ :=
  ⟨by decide,
    C9_fresh_trajectory [(1 : ℚ)] (fun s => s) (fun s => s) exD [1, 1] (by decide)⟩

end PySpecies
